import Mathlib

/-
Verification of the aggregation and rendering logic of asana_progress.py.

Shallow embedding conventions:
- Python dict records become structures; fields read with dict.get(key, default)
  are modelled as Option fields read with Option.getD.
- Python floats are modelled as exact rationals; task counts are Nat.
- A remote fetch that may raise is modelled as an Option argument:
  none stands for the raised exception that the surrounding handler catches.
- Python str values are modelled as Lean String; the string primitives the
  program uses (code-point comparison, substring test, ASCII lowering,
  slicing, repetition) are implemented below over List Char so that they
  both mirror CPython semantics and reduce in the kernel.
-/

namespace Asana

/-- Model of a task record: the code reads only the completed flag
(opt fields completed_at and name are requested but never read). -/
structure Task where
  completed : Option Bool
deriving DecidableEq

/-- Model of a project status update record with opt fields text, color,
created_at. -/
structure StatusUpdate where
  text : Option String
  color : Option String
  created_at : Option String
deriving DecidableEq

/-- Model of a project record as consumed by the tracker: gid plus the
fields get_project_progress and get_all_projects actually read. -/
structure Project where
  gid : String
  name : Option String
  workspace_name : Option String
  completed : Option Bool
  archived : Option Bool
  color : Option String
deriving DecidableEq

/-- Model of the per-project progress dict returned by
get_project_progress. -/
structure ProjectProgress where
  name : String
  workspace : String
  total_tasks : Nat
  completed_tasks : Nat
  percentage : ℚ
  completed : Bool
  archived : Bool
  status : String
  color : String
deriving DecidableEq

/-- CPython string comparison on code points: elementwise, the first
differing code point decides, and a proper front part compares below the
longer string. -/
def charListLt : List Char → List Char → Bool
  | _, [] => false
  | [], _ :: _ => true
  | a :: as, b :: bs =>
    if a.toNat < b.toNat then true
    else if b.toNat < a.toNat then false
    else charListLt as bs

/-- Python operator < on strings. -/
def pyStrLt (s t : String) : Bool := charListLt s.data t.data

/-- The sort key used for status updates: x.get(created_at, empty). -/
def createdKey (u : StatusUpdate) : String := u.created_at.getD ""

/-- Python max(first :: rest, key=createdKey): scans left to right and
replaces the current best only on a strictly larger key, so the first
maximal element wins. -/
def pyMaxByCreated (first : StatusUpdate) : List StatusUpdate → StatusUpdate
  | [] => first
  | x :: xs => pyMaxByCreated (if pyStrLt (createdKey first) (createdKey x) then x else first) xs

/-- Tests whether the needle appears at the front of the haystack. -/
def startsWithChars : List Char → List Char → Bool
  | [], _ => true
  | _ :: _, [] => false
  | a :: as, b :: bs => (a = b : Bool) && startsWithChars as bs

/-- Tests whether the needle occurs somewhere in the haystack, as the
Python operator in does on strings. -/
def containsChars : List Char → List Char → Bool
  | [], needle => needle.isEmpty
  | c :: rest, needle => startsWithChars needle (c :: rest) || containsChars rest needle

/-- Python substring test: needle in hay. -/
def strContains (hay needle : String) : Bool := containsChars hay.data needle.data

/-- ASCII lowering of one character; the status texts the code matches
against are all ASCII, so this models str.lower on the relevant inputs. -/
def lowerChar (c : Char) : Char :=
  if 65 ≤ c.toNat ∧ c.toNat ≤ 90 then Char.ofNat (c.toNat + 32) else c

/-- Python str.lower restricted to ASCII letters. -/
def pyLower (s : String) : String := String.mk (s.data.map lowerChar)

/-- The text-inference chain of get_project_progress, applied to the
already lowercased status text when the color field is absent. -/
def statusFromText (text : String) : String :=
  if strContains text "hold" || strContains text "pause" || strContains text "wait" then "On hold"
  else if strContains text "risk" || strContains text "delay" || strContains text "issue" then "At risk"
  else if strContains text "off track" || strContains text "problem" || strContains text "red" then "Off track"
  else if strContains text "track" || strContains text "progress" || strContains text "good" then "On track"
  else if strContains text "complete" || strContains text "done" then "Completed"
  else "No status"

/-- Maps the most recent status update to a label: the color chain of
get_project_progress, falling back to text inference when color is None
and to the literal lowercase on hold for an unrecognized color. -/
def statusFromLatest (u : StatusUpdate) : String :=
  match u.color with
  | some c =>
    if c = "green" then "On track"
    else if c = "blue" then "On hold"
    else if c = "yellow" then "At risk"
    else if c = "red" then "Off track"
    else if c = "complete" then "Completed"
    else "on hold"
  | none => statusFromText (pyLower (u.text.getD ""))

/-- The basic status fallback of get_project_progress: completed, then
Archived, then Active. -/
def fallbackStatus (completed archived : Bool) : String :=
  if completed then "completed" else if archived then "Archived" else "Active"

/-- Status resolution of get_project_progress. The statuses value in the
code is a generator, which is always truthy, so the branch assigning
No status on a falsy statuses value is unreachable; on an empty sequence
the call max(statuses, ...) raises ValueError, which the surrounding
except handler catches, landing in the same fallback as a failed fetch.
The none case models a fetch (or max) that raised. -/
def resolveStatusText (project : Project) : Option (List StatusUpdate) → String
  | none => fallbackStatus (project.completed.getD false) (project.archived.getD false)
  | some [] => fallbackStatus (project.completed.getD false) (project.archived.getD false)
  | some (s :: rest) => statusFromLatest (pyMaxByCreated s rest)

/-- Number of tasks whose completed flag reads true, as the generator sum
in get_project_progress counts them. -/
def completedCount (tasks : List Task) : Nat :=
  tasks.countP (fun t => t.completed.getD false)

/-- The guarded percentage computation of get_project_progress. -/
def percentageOf (completed total : Nat) : ℚ :=
  if 0 < total then (completed : ℚ) / (total : ℚ) * 100 else 0

/-- Model of get_project_progress. The tasksFetch argument is the attempt
to list the project tasks (none = the fetch raised, caught by the outer
handler which returns the degraded record); statusFetch is the attempt to
list the status updates (none = that inner call raised). -/
def get_project_progress (project : Project) (tasksFetch : Option (List Task))
    (statusFetch : Option (List StatusUpdate)) : ProjectProgress :=
  match tasksFetch with
  | none =>
    { name := project.name.getD "Unknown"
      workspace := project.workspace_name.getD "Unknown"
      total_tasks := 0
      completed_tasks := 0
      percentage := 0
      completed := project.completed.getD false
      archived := project.archived.getD false
      status := "Error"
      color := "red" }
  | some tasks =>
    { name := project.name.getD "Unnamed Project"
      workspace := project.workspace_name.getD "Unknown"
      total_tasks := tasks.length
      completed_tasks := completedCount tasks
      percentage := percentageOf (completedCount tasks) tasks.length
      completed := project.completed.getD false
      archived := project.archived.getD false
      status := resolveStatusText project statusFetch
      color := project.color.getD "light-blue" }

/-- The per-project loop of run: every project contributes exactly one
record; per-project failures are absorbed inside get_project_progress. -/
def computeAllProgress (projects : List Project)
    (tasksOf : String → Option (List Task))
    (statusOf : String → Option (List StatusUpdate)) : List ProjectProgress :=
  projects.map (fun p => get_project_progress p (tasksOf p.gid) (statusOf p.gid))

/-- Observable outcome of run: whether the no-projects notice printed,
whether display_progress_bars was invoked, the records passed to it, and
the process exit code (run returns normally in both branches, so main
exits with code 0). -/
structure RunResult where
  noticePrinted : Bool
  rendererInvoked : Bool
  records : List ProjectProgress
  exitCode : Nat
deriving DecidableEq

/-- Model of run, applied to the result of get_all_projects. -/
def run (projects : List Project)
    (tasksOf : String → Option (List Task))
    (statusOf : String → Option (List StatusUpdate)) : RunResult :=
  if projects.isEmpty then
    { noticePrinted := true, rendererInvoked := false, records := [], exitCode := 0 }
  else
    { noticePrinted := false, rendererInvoked := true
      records := computeAllProgress projects tasksOf statusOf, exitCode := 0 }

/-- Stable descending sort on percentage, the Python call
sorted(projects, key=(percentage of x), reverse=True). CPython sorted is
stable, and with reverse=True it produces the unique reordering that is
nonincreasing on the key and keeps ties in input order; insertion sort
with the relation (percentage of b less or equal percentage of a) produces
exactly that reordering, as the stability theorem below shows. -/
def sorted_projects (projects : List ProjectProgress) : List ProjectProgress :=
  List.insertionSort (fun a b => b.percentage ≤ a.percentage) projects

/-- The project-name cell of _display_workspace_table: the Python
expression name[:33] + three dots when len(name) exceeds 35, else name. -/
def truncatedName (name : String) : String :=
  if 35 < name.length then String.mk (name.data.take 33) ++ "..." else name

/-- Python int() applied to a rational value: truncation toward zero. -/
def pyInt (q : ℚ) : ℤ :=
  if 0 ≤ q then ⌊q⌋ else ⌈q⌉

/-- Python string repetition char * n, empty when n is not positive. -/
def pyRepeatChar (c : Char) (n : ℤ) : String :=
  String.mk (List.replicate n.toNat c)

/-- Nearest integer with ties to even, on exact rationals. -/
def roundHalfEvenInt (q : ℚ) : ℤ :=
  let f := ⌊q⌋
  let frac := q - (f : ℚ)
  if frac < 1 / 2 then f
  else if 1 / 2 < frac then f + 1
  else if f % 2 = 0 then f else f + 1

/-- Fixed-point formatting with one decimal, the format spec .1f, for the
nonnegative percentages this program renders: CPython rounds the value
half to even at the first decimal and prints integral part, dot, tenth
digit. -/
def formatFixed1 (q : ℚ) : String :=
  let n := roundHalfEvenInt (q * 10)
  toString (n / 10) ++ "." ++ toString (n % 10)

/-- Model of _create_progress_bar: twenty cells, int-truncated fill count,
filled glyphs then empty glyphs, then a space and the formatted
percentage with a percent sign. -/
def _create_progress_bar (percentage : ℚ) : String :=
  pyRepeatChar '█' (pyInt (20 * percentage / 100))
    ++ pyRepeatChar '░' (20 - pyInt (20 * percentage / 100))
    ++ " " ++ formatFixed1 percentage ++ "%"

/-- Count of completed projects in _display_summary. -/
def completed_projects (ps : List ProjectProgress) : Nat :=
  ps.countP (fun p => p.completed)

/-- Count of active projects in _display_summary: neither completed nor
archived. -/
def active_projects (ps : List ProjectProgress) : Nat :=
  ps.countP (fun p => !p.completed && !p.archived)

/-- Count of archived projects in _display_summary. -/
def archived_projects (ps : List ProjectProgress) : Nat :=
  ps.countP (fun p => p.archived)

/-- Observable outcome of credential resolution: the token the tracker
ends up with (none = the process exited over an empty entry), whether the
secret store was read, whether the user was prompted, and whether a store
write was attempted. -/
structure CredTrace where
  token : Option String
  storeRead : Bool
  prompted : Bool
  storeWriteAttempted : Bool
deriving DecidableEq

/-- Python str.strip() used on the prompted key: drops leading and
trailing whitespace. -/
def pyStrip (s : String) : String :=
  String.mk (((s.data.dropWhile fun c => c.isWhitespace).reverse.dropWhile
    fun c => c.isWhitespace).reverse)

/-- The prompt branch of _get_api_key: reads the interactive input; an
input that strips to empty exits the process, otherwise a store write is
attempted (best effort) and the raw input is returned. -/
def promptForKey (promptInput : String) : CredTrace :=
  if (pyStrip promptInput).isEmpty then
    { token := none, storeRead := true, prompted := true, storeWriteAttempted := false }
  else
    { token := some promptInput, storeRead := true, prompted := true, storeWriteAttempted := true }

/-- Model of _get_api_key: reads the store first; a stored value that is
truthy (present and non-empty) is returned without prompting, anything
else falls through to the prompt branch. -/
def _get_api_key (stored : Option String) (promptInput : String) : CredTrace :=
  match stored with
  | some s =>
    if s.isEmpty then promptForKey promptInput
    else { token := some s, storeRead := true, prompted := false, storeWriteAttempted := false }
  | none => promptForKey promptInput

/-- Credential resolution in init: an api_key argument that is not None is
used as given; only a None argument invokes _get_api_key. -/
def resolve_api_key (explicit : Option String) (stored : Option String)
    (promptInput : String) : CredTrace :=
  match explicit with
  | some k => { token := some k, storeRead := false, prompted := false, storeWriteAttempted := false }
  | none => _get_api_key stored promptInput

theorem charListLt_irrefl (l : List Char) : charListLt l l = false := by
  induction l with
  | nil => rfl
  | cons a as ih => simp [charListLt, ih]

theorem charListLt_asymm : ∀ {a b : List Char}, charListLt a b = true → charListLt b a = false := by
  intro a
  induction a with
  | nil =>
    intro b h
    cases b with
    | nil => simp [charListLt] at h
    | cons y ys => rfl
  | cons x xs ih =>
    intro b h
    cases b with
    | nil => simp [charListLt] at h
    | cons y ys =>
      simp only [charListLt] at h ⊢
      by_cases h1 : x.toNat < y.toNat
      · have h2 : ¬ y.toNat < x.toNat := by omega
        simp [h1, h2]
      · by_cases h2 : y.toNat < x.toNat
        · simp [h1, h2] at h
        · simp only [if_neg h1, if_neg h2] at h ⊢
          exact ih h

theorem charListLt_ge_trans :
    ∀ {a b c : List Char}, charListLt a b = false → charListLt b c = false →
      charListLt a c = false := by
  intro a
  induction a with
  | nil =>
    intro b c hab hbc
    cases b with
    | nil => exact hbc
    | cons y ys => simp [charListLt] at hab
  | cons x xs ih =>
    intro b c hab hbc
    cases c with
    | nil => rfl
    | cons z zs =>
      cases b with
      | nil => simp [charListLt] at hbc
      | cons y ys =>
        simp only [charListLt] at hab hbc ⊢
        by_cases h1 : x.toNat < y.toNat
        · simp [h1] at hab
        · by_cases h2 : y.toNat < z.toNat
          · simp [h2] at hbc
          · by_cases h3 : x.toNat < z.toNat
            · exact absurd h3 (by omega)
            · by_cases h4 : z.toNat < x.toNat
              · simp [h3, h4]
              · have hxy : ¬ y.toNat < x.toNat := by omega
                have hyz : ¬ z.toNat < y.toNat := by omega
                simp only [if_neg h1, if_neg hxy] at hab
                simp only [if_neg h2, if_neg hyz] at hbc
                simp only [if_neg h3, if_neg h4]
                exact ih hab hbc

theorem pyStrLt_irrefl (s : String) : pyStrLt s s = false := charListLt_irrefl _

theorem pyStrLt_asymm {s t : String} (h : pyStrLt s t = true) : pyStrLt t s = false :=
  charListLt_asymm h

theorem pyStrLt_ge_trans {s t u : String} (h1 : pyStrLt s t = false)
    (h2 : pyStrLt t u = false) : pyStrLt s u = false :=
  charListLt_ge_trans h1 h2

theorem pyMaxByCreated_mem :
    ∀ (rest : List StatusUpdate) (first : StatusUpdate),
      pyMaxByCreated first rest ∈ first :: rest := by
  intro rest
  induction rest with
  | nil => intro s; simp [pyMaxByCreated]
  | cons x xs ih =>
    intro s
    rw [pyMaxByCreated]
    rcases List.mem_cons.mp (ih (if pyStrLt (createdKey s) (createdKey x) then x else s)) with
      h | h
    · rw [h]
      by_cases hx : pyStrLt (createdKey s) (createdKey x) = true
      · rw [if_pos hx]
        exact List.mem_cons_of_mem _ (List.mem_cons_self _ _)
      · rw [if_neg hx]
        exact List.mem_cons_self _ _
    · exact List.mem_cons_of_mem _ (List.mem_cons_of_mem _ h)

theorem pyMaxByCreated_not_lt :
    ∀ (rest : List StatusUpdate) (first v : StatusUpdate), v ∈ first :: rest →
      pyStrLt (createdKey (pyMaxByCreated first rest)) (createdKey v) = false := by
  intro rest
  induction rest with
  | nil =>
    intro s v hv
    have hvs : v = s := by simpa using hv
    subst hvs
    exact pyStrLt_irrefl _
  | cons x xs ih =>
    intro s v hv
    rw [pyMaxByCreated]
    have hres_acc :
        pyStrLt
          (createdKey (pyMaxByCreated (if pyStrLt (createdKey s) (createdKey x) then x else s) xs))
          (createdKey (if pyStrLt (createdKey s) (createdKey x) then x else s)) = false :=
      ih _ _ (List.mem_cons_self _ _)
    have hacc_s :
        pyStrLt (createdKey (if pyStrLt (createdKey s) (createdKey x) then x else s))
          (createdKey s) = false := by
      by_cases hx : pyStrLt (createdKey s) (createdKey x) = true
      · rw [if_pos hx]; exact pyStrLt_asymm hx
      · rw [if_neg hx]; exact pyStrLt_irrefl _
    have hacc_x :
        pyStrLt (createdKey (if pyStrLt (createdKey s) (createdKey x) then x else s))
          (createdKey x) = false := by
      by_cases hx : pyStrLt (createdKey s) (createdKey x) = true
      · rw [if_pos hx]; exact pyStrLt_irrefl _
      · rw [if_neg hx]; simpa using hx
    rcases List.mem_cons.mp hv with rfl | hv
    · exact pyStrLt_ge_trans hres_acc hacc_s
    · rcases List.mem_cons.mp hv with rfl | hv
      · exact pyStrLt_ge_trans hres_acc hacc_x
      · exact ih _ _ (List.mem_cons_of_mem _ hv)

/-- C1: for every project whose status-update list is empty or whose
status-update fetch fails, the resolved status label is completed when the
completed flag reads true, else Archived when the archived flag reads
true, else Active; the same label lands in the status field of the
progress record. -/
theorem c1_status_fallback (p : Project) (sf : Option (List StatusUpdate))
    (tasks : List Task) (h : sf = none ∨ sf = some []) :
    resolveStatusText p sf =
      (if p.completed.getD false then "completed"
        else if p.archived.getD false then "Archived" else "Active")
    ∧ (get_project_progress p (some tasks) sf).status =
      (if p.completed.getD false then "completed"
        else if p.archived.getD false then "Archived" else "Active") := by
  rcases h with h | h <;> subst h <;> exact ⟨rfl, rfl⟩

/-- Witness for C1 at a concrete completed project with an empty
status-update list. -/
theorem c1_status_fallback_witness :
    resolveStatusText ⟨"g1", none, none, some true, none, none⟩ (some []) = "completed"
    ∧ (get_project_progress ⟨"g1", none, none, some true, none, none⟩ (some [])
        (some [])).status = "completed" := by
  have h := c1_status_fallback ⟨"g1", none, none, some true, none, none⟩ (some []) []
    (Or.inr rfl)
  simpa using h

/-- C4: a failed task fetch produces the degraded record with zero
counts, zero percentage, status Error and color red, and the per-project
loop still yields one record per project, so the run is never aborted by
a single failing project. -/
theorem c4_degraded_record (p : Project) (sf : Option (List StatusUpdate))
    (ps : List Project) (tasksOf : String → Option (List Task))
    (statusOf : String → Option (List StatusUpdate)) :
    get_project_progress p none sf =
      { name := p.name.getD "Unknown", workspace := p.workspace_name.getD "Unknown"
        total_tasks := 0, completed_tasks := 0, percentage := 0
        completed := p.completed.getD false, archived := p.archived.getD false
        status := "Error", color := "red" }
    ∧ (computeAllProgress ps tasksOf statusOf).length = ps.length := by
  exact ⟨rfl, by simp [computeAllProgress]⟩

/-- C8: a supplied api_key argument is used verbatim; the secret store is
neither read nor written and no prompt occurs. -/
theorem c8_explicit_token (t : String) (stored : Option String) (promptInput : String) :
    resolve_api_key (some t) stored promptInput =
      { token := some t, storeRead := false, prompted := false
        storeWriteAttempted := false } :=
  rfl

/-- C9: with zero projects enumerated, run prints the notice, never
invokes the renderer (no tables, no summary records), and the process
ends with exit code 0. -/
theorem c9_no_projects (tasksOf : String → Option (List Task))
    (statusOf : String → Option (List StatusUpdate)) :
    run [] tasksOf statusOf =
      { noticePrinted := true, rendererInvoked := false, records := [], exitCode := 0 } :=
  rfl

/-- C10: the three summary counters count active as neither flag,
completed by the completed flag and archived by the archived flag; their
sum equals the project count plus the count of projects with both flags,
and on a singleton list whose project has both flags the sum strictly
exceeds the list length. -/
theorem c10_summary_counts :
    (∀ ps : List ProjectProgress,
      active_projects ps + completed_projects ps + archived_projects ps =
        ps.length + ps.countP (fun p => p.completed && p.archived))
    ∧ active_projects [⟨"B", "W", 0, 0, 0, true, true, "completed", "red"⟩]
        + completed_projects [⟨"B", "W", 0, 0, 0, true, true, "completed", "red"⟩]
        + archived_projects [⟨"B", "W", 0, 0, 0, true, true, "completed", "red"⟩] = 2
    ∧ active_projects [⟨"B", "W", 0, 0, 0, true, true, "completed", "red"⟩]
        + completed_projects [⟨"B", "W", 0, 0, 0, true, true, "completed", "red"⟩]
        + archived_projects [⟨"B", "W", 0, 0, 0, true, true, "completed", "red"⟩]
        > List.length [(⟨"B", "W", 0, 0, 0, true, true, "completed", "red"⟩ : ProjectProgress)] := by
  refine ⟨?_, by decide, by decide⟩
  intro ps
  induction ps with
  | nil => rfl
  | cons p t ih =>
    simp only [active_projects, completed_projects, archived_projects, List.countP_cons,
      List.length_cons] at ih ⊢
    cases hc : p.completed <;> cases ha : p.archived <;> simp [hc, ha] <;> omega

/-- C2: on a non-empty status-update list the update with the
lexicographically maximum created_at string is selected (the selected
update belongs to the list and no list entry has a strictly larger key),
its color maps green to On track, blue to On hold, yellow to At risk, red
to Off track, complete to Completed, any other present color to the
lowercase on hold; an absent color falls back to case-insensitive
substring inference on the text in priority order; and the two-update
example resolves to Off track because the most recent update wins. -/
theorem c2_latest_status_mapping (p : Project) (s : StatusUpdate)
    (rest : List StatusUpdate) (u : StatusUpdate) (c : String)
    (hcu : u.color = some c)
    (hc : c ≠ "green" ∧ c ≠ "blue" ∧ c ≠ "yellow" ∧ c ≠ "red" ∧ c ≠ "complete") :
    resolveStatusText p (some (s :: rest)) = statusFromLatest (pyMaxByCreated s rest)
    ∧ pyMaxByCreated s rest ∈ s :: rest
    ∧ (∀ v ∈ s :: rest,
        pyStrLt (createdKey (pyMaxByCreated s rest)) (createdKey v) = false)
    ∧ (∀ w : StatusUpdate, w.color = some "green" → statusFromLatest w = "On track")
    ∧ (∀ w : StatusUpdate, w.color = some "blue" → statusFromLatest w = "On hold")
    ∧ (∀ w : StatusUpdate, w.color = some "yellow" → statusFromLatest w = "At risk")
    ∧ (∀ w : StatusUpdate, w.color = some "red" → statusFromLatest w = "Off track")
    ∧ (∀ w : StatusUpdate, w.color = some "complete" → statusFromLatest w = "Completed")
    ∧ statusFromLatest u = "on hold"
    ∧ statusFromLatest ⟨some "Please WAIT a bit", none, none⟩ = "On hold"
    ∧ statusFromLatest ⟨some "shipping Delayed", none, none⟩ = "At risk"
    ∧ statusFromLatest ⟨some "big problem", none, none⟩ = "Off track"
    ∧ statusFromLatest ⟨some "good", none, none⟩ = "On track"
    ∧ statusFromLatest ⟨some "all done", none, none⟩ = "Completed"
    ∧ statusFromLatest ⟨some "hello", none, none⟩ = "No status"
    ∧ statusFromLatest ⟨some "on hold at risk", none, none⟩ = "On hold"
    ∧ resolveStatusText p
        (some [⟨none, some "green", some "2023-01-01"⟩,
               ⟨none, some "red", some "2023-06-01"⟩]) = "Off track" := by
  obtain ⟨ut, uc, ua⟩ := u
  simp only at hcu
  subst hcu
  refine ⟨rfl, pyMaxByCreated_mem rest s, pyMaxByCreated_not_lt rest s, ?_, ?_, ?_, ?_, ?_,
    ?_, by decide, by decide, by decide, by decide, by decide, by decide, by decide, rfl⟩
  · intro w hw; obtain ⟨wt, wc, wa⟩ := w; simp only at hw; subst hw; rfl
  · intro w hw; obtain ⟨wt, wc, wa⟩ := w; simp only at hw; subst hw; rfl
  · intro w hw; obtain ⟨wt, wc, wa⟩ := w; simp only at hw; subst hw; rfl
  · intro w hw; obtain ⟨wt, wc, wa⟩ := w; simp only at hw; subst hw; rfl
  · intro w hw; obtain ⟨wt, wc, wa⟩ := w; simp only at hw; subst hw; rfl
  · simp [statusFromLatest, hc.1, hc.2.1, hc.2.2.1, hc.2.2.2.1, hc.2.2.2.2]

/-- Witness for C2 at a concrete unrecognized color and at the concrete
two-update example of the specification. -/
theorem c2_latest_status_mapping_witness :
    statusFromLatest ⟨none, some "purple", none⟩ = "on hold"
    ∧ resolveStatusText ⟨"g1", none, none, none, none, none⟩
        (some [⟨none, some "green", some "2023-01-01"⟩,
               ⟨none, some "red", some "2023-06-01"⟩]) = "Off track" := by
  have h := c2_latest_status_mapping ⟨"g1", none, none, none, none, none⟩
    ⟨none, some "green", some "2023-01-01"⟩ [⟨none, some "red", some "2023-06-01"⟩]
    ⟨none, some "purple", none⟩ "purple" rfl (by decide)
  obtain ⟨h1, h2, h3, h4, h5, h6, h7, h8, h9, h10, h11, h12, h13, h14, h15, h16, h17⟩ := h
  exact ⟨h9, h17⟩

theorem percentageOf_spec (c t : Nat) (h : c ≤ t) :
    0 ≤ percentageOf c t ∧ percentageOf c t ≤ 100
    ∧ (t = 0 → percentageOf c t = 0)
    ∧ (0 < t → percentageOf c t = (c : ℚ) / (t : ℚ) * 100) := by
  by_cases ht : 0 < t
  · have htQ : (0 : ℚ) < (t : ℚ) := by exact_mod_cast ht
    have hcQ : (c : ℚ) ≤ (t : ℚ) := by exact_mod_cast h
    have hdiv1 : (c : ℚ) / (t : ℚ) ≤ 1 := (div_le_one htQ).mpr hcQ
    have hdiv0 : (0 : ℚ) ≤ (c : ℚ) / (t : ℚ) := div_nonneg (by positivity) (le_of_lt htQ)
    refine ⟨?_, ?_, fun h0 => absurd h0 (by omega), fun _ => ?_⟩
    · unfold percentageOf
      rw [if_pos ht]
      exact mul_nonneg hdiv0 (by norm_num)
    · unfold percentageOf
      rw [if_pos ht]
      calc (c : ℚ) / (t : ℚ) * 100 ≤ 1 * 100 :=
            mul_le_mul_of_nonneg_right hdiv1 (by norm_num)
        _ = 100 := one_mul 100
    · unfold percentageOf
      rw [if_pos ht]
  · refine ⟨?_, ?_, fun _ => ?_, fun hlt => absurd hlt ht⟩ <;>
      norm_num [percentageOf, ht]

/-- C3: every record get_project_progress produces has a percentage
between 0 and 100, zero percentage when there are no tasks (guarded
division, not an error), completed_tasks at most total_tasks, and when
total_tasks is positive the percentage equals completed over total times
one hundred. -/
theorem c3_percentage_invariants (p : Project) (tf : Option (List Task))
    (sf : Option (List StatusUpdate)) :
    0 ≤ (get_project_progress p tf sf).percentage
    ∧ (get_project_progress p tf sf).percentage ≤ 100
    ∧ ((get_project_progress p tf sf).total_tasks = 0 →
        (get_project_progress p tf sf).percentage = 0)
    ∧ (get_project_progress p tf sf).completed_tasks ≤
        (get_project_progress p tf sf).total_tasks
    ∧ (0 < (get_project_progress p tf sf).total_tasks →
        (get_project_progress p tf sf).percentage =
          ((get_project_progress p tf sf).completed_tasks : ℚ)
            / ((get_project_progress p tf sf).total_tasks : ℚ) * 100) := by
  cases tf with
  | none =>
    exact ⟨le_refl 0, by simp only [get_project_progress]; norm_num, fun _ => rfl,
      Nat.le_refl 0, fun h => absurd h (by simp [get_project_progress])⟩
  | some tasks =>
    have hct : completedCount tasks ≤ tasks.length := List.countP_le_length _
    have hb := percentageOf_spec (completedCount tasks) tasks.length hct
    simp only [get_project_progress]
    exact ⟨hb.1, hb.2.1, fun h => hb.2.2.1 h, hct, fun h => hb.2.2.2 h⟩

/-- Witness for C3 on a concrete two-task list with one completed task. -/
theorem c3_percentage_invariants_witness :
    0 < (get_project_progress ⟨"g1", none, none, none, none, none⟩
        (some [⟨some true⟩, ⟨some false⟩]) none).total_tasks
    ∧ (get_project_progress ⟨"g1", none, none, none, none, none⟩
        (some [⟨some true⟩, ⟨some false⟩]) none).percentage =
      ((get_project_progress ⟨"g1", none, none, none, none, none⟩
          (some [⟨some true⟩, ⟨some false⟩]) none).completed_tasks : ℚ)
        / ((get_project_progress ⟨"g1", none, none, none, none, none⟩
            (some [⟨some true⟩, ⟨some false⟩]) none).total_tasks : ℚ) * 100 := by
  have h := c3_percentage_invariants ⟨"g1", none, none, none, none, none⟩
    (some [⟨some true⟩, ⟨some false⟩]) none
  exact ⟨by decide, h.2.2.2.2 (by decide)⟩

theorem filter_orderedInsert (k : ℚ) (a : ProjectProgress) (l : List ProjectProgress) :
    (List.orderedInsert (fun x y => y.percentage ≤ x.percentage) a l).filter
        (fun x => decide (x.percentage = k))
      = (if a.percentage = k then
          a :: l.filter (fun x => decide (x.percentage = k))
        else l.filter (fun x => decide (x.percentage = k))) := by
  induction l with
  | nil =>
    by_cases hk : a.percentage = k
    · simp [List.orderedInsert, hk]
    · simp [List.orderedInsert, hk]
  | cons b bs ih =>
    rw [List.orderedInsert]
    by_cases hab : b.percentage ≤ a.percentage
    · rw [if_pos hab]
      by_cases hk : a.percentage = k
      · simp [List.filter_cons, hk]
      · simp [List.filter_cons, hk]
    · rw [if_neg hab]
      rw [List.filter_cons, ih]
      have hlt : a.percentage < b.percentage := not_le.mp hab
      by_cases hk : a.percentage = k
      · have hbk : ¬ b.percentage = k := by rw [← hk]; exact ne_of_gt hlt
        simp [hk, hbk, List.filter_cons]
      · by_cases hbk : b.percentage = k
        · simp [hk, hbk, List.filter_cons]
        · simp [hk, hbk, List.filter_cons]

theorem filter_sorted_projects (k : ℚ) (l : List ProjectProgress) :
    (sorted_projects l).filter (fun x => decide (x.percentage = k))
      = l.filter (fun x => decide (x.percentage = k)) := by
  induction l with
  | nil => rfl
  | cons a t ih =>
    rw [sorted_projects, List.insertionSort, filter_orderedInsert]
    rw [show List.insertionSort (fun x y => y.percentage ≤ x.percentage) t
        = sorted_projects t from rfl, ih]
    by_cases hk : a.percentage = k
    · simp [hk, List.filter_cons]
    · simp [hk, List.filter_cons]

/-- C5: the per-workspace sort orders records by percentage descending
(the output is pairwise nonincreasing on percentage and a permutation of
the input) and is stable (for every key the records carrying that exact
percentage appear in their original relative order, stated as a filter
identity); the concrete list with percentages 10, 90, 90, 50 renders as
90, 90, 50, 10 with the two 90-percent records in input order. -/
theorem c5_sort_desc_stable (l : List ProjectProgress) (k : ℚ) :
    (sorted_projects l).Sorted (fun a b => b.percentage ≤ a.percentage)
    ∧ List.Perm (sorted_projects l) l
    ∧ (sorted_projects l).filter (fun x => decide (x.percentage = k))
        = l.filter (fun x => decide (x.percentage = k))
    ∧ sorted_projects
        [⟨"P10", "W", 10, 1, 10, false, false, "Active", "none"⟩,
         ⟨"P90a", "W", 10, 9, 90, false, false, "Active", "none"⟩,
         ⟨"P90b", "W", 20, 18, 90, false, false, "Active", "none"⟩,
         ⟨"P50", "W", 10, 5, 50, false, false, "Active", "none"⟩]
      = [⟨"P90a", "W", 10, 9, 90, false, false, "Active", "none"⟩,
         ⟨"P90b", "W", 20, 18, 90, false, false, "Active", "none"⟩,
         ⟨"P50", "W", 10, 5, 50, false, false, "Active", "none"⟩,
         ⟨"P10", "W", 10, 1, 10, false, false, "Active", "none"⟩] := by
  refine ⟨?_, List.perm_insertionSort _ l, filter_sorted_projects k l, by decide⟩
  haveI : IsTotal ProjectProgress (fun a b => b.percentage ≤ a.percentage) :=
    ⟨fun a b => le_total b.percentage a.percentage⟩
  haveI : IsTrans ProjectProgress (fun a b => b.percentage ≤ a.percentage) :=
    ⟨fun _ _ _ h1 h2 => le_trans h2 h1⟩
  exact List.sorted_insertionSort _ l

/-- C7 counterexample: a 36-character name renders as its first 33
characters plus three dots, a 36-character cell, so the rendered cell is
not the name truncated to 35 display characters. -/
theorem c7_claim_counterexample :
    (truncatedName (String.mk (List.replicate 36 'a'))).length ≠ 35
    ∧ truncatedName (String.mk (List.replicate 36 'a'))
        = String.mk (List.replicate 33 'a') ++ "..." := by
  exact ⟨by decide, by decide⟩

/-- C7 amended: names longer than 35 characters render as their first 33
characters followed by the three-character ellipsis, a 36-character cell;
names of at most 35 characters render unchanged. -/
theorem c7_truncation_amended (name : String) :
    (35 < name.length →
      truncatedName name = String.mk (name.data.take 33) ++ "..."
      ∧ (truncatedName name).length = 36)
    ∧ (name.length ≤ 35 → truncatedName name = name) := by
  constructor
  · intro h
    have heq : truncatedName name = String.mk (name.data.take 33) ++ "..." := by
      unfold truncatedName
      rw [if_pos h]
    refine ⟨heq, ?_⟩
    rw [heq]
    show (name.data.take 33 ++ "...".data).length = 36
    have hlen : name.data.length = name.length := rfl
    simp only [List.length_append, List.length_take, List.length_cons, List.length_nil]
    omega
  · intro h
    unfold truncatedName
    rw [if_neg (by omega)]

/-- Witness for C7 amended at a concrete 36-character name and a concrete
short name. -/
theorem c7_truncation_amended_witness :
    (truncatedName (String.mk (List.replicate 36 'a'))
        = String.mk ((List.replicate 36 'a').take 33) ++ "..."
      ∧ (truncatedName (String.mk (List.replicate 36 'a'))).length = 36)
    ∧ truncatedName "short" = "short" := by
  exact ⟨(c7_truncation_amended (String.mk (List.replicate 36 'a'))).1 (by decide),
    (c7_truncation_amended "short").2 (by decide)⟩

theorem progress_bar_shape (p : ℚ) (hp0 : 0 ≤ p) (hp100 : p ≤ 100) :
    (⌊20 * p / 100⌋).toNat ≤ 20
    ∧ _create_progress_bar p =
        String.mk (List.replicate (⌊20 * p / 100⌋).toNat '█'
          ++ List.replicate (20 - (⌊20 * p / 100⌋).toNat) '░')
        ++ " " ++ formatFixed1 p ++ "%" := by
  have hq0 : (0 : ℚ) ≤ 20 * p / 100 := by positivity
  have hq20 : 20 * p / 100 ≤ 20 := by linarith
  have hf0 : 0 ≤ ⌊20 * p / 100⌋ := Int.floor_nonneg.mpr hq0
  have hf20 : ⌊20 * p / 100⌋ ≤ 20 := by
    have hm := Int.floor_mono hq20
    simpa using hm
  constructor
  · omega
  · have hpy : pyInt (20 * p / 100) = ⌊20 * p / 100⌋ := if_pos hq0
    have htn : ((20 : ℤ) - ⌊20 * p / 100⌋).toNat = 20 - (⌊20 * p / 100⌋).toNat := by omega
    simp only [_create_progress_bar, pyRepeatChar, hpy, htn]
    rfl

/-- C6: for every percentage between 0 and 100 the rendered bar is
floor(20 times p over 100) filled glyphs, then the remaining empty glyphs
out of twenty, then a space and the percentage formatted to one decimal
with a percent sign; at 37.5 this gives 7 filled cells, 13 empty cells
and the label 37.5 percent. -/
theorem c6_progress_bar :
    (∀ p : ℚ, 0 ≤ p → p ≤ 100 →
      (⌊20 * p / 100⌋).toNat ≤ 20
      ∧ _create_progress_bar p =
          String.mk (List.replicate (⌊20 * p / 100⌋).toNat '█'
            ++ List.replicate (20 - (⌊20 * p / 100⌋).toNat) '░')
          ++ " " ++ formatFixed1 p ++ "%")
    ∧ _create_progress_bar (75 / 2) = "███████░░░░░░░░░░░░░ 37.5%" := by
  refine ⟨fun p hp0 hp100 => progress_bar_shape p hp0 hp100, ?_⟩
  have key : (⌊(20 : ℚ) * (75 / 2) / 100⌋) = 7 := by
    have h1 : (20 : ℚ) * (75 / 2) / 100 = 15 / 2 := by norm_num
    rw [h1, Int.floor_eq_iff]
    norm_num
  have fmt : formatFixed1 (75 / 2 : ℚ) = "37.5" := by
    have h1 : (75 / 2 : ℚ) * 10 = 375 := by norm_num
    have h2 : roundHalfEvenInt (375 : ℚ) = 375 := by
      have hf : ⌊(375 : ℚ)⌋ = 375 := by
        rw [Int.floor_eq_iff]
        norm_num
      simp only [roundHalfEvenInt, hf]
      norm_num
    simp only [formatFixed1, h1, h2]
    decide
  have hsh := (progress_bar_shape (75 / 2) (by norm_num) (by norm_num)).2
  rw [key] at hsh
  rw [hsh, fmt]
  decide

/-- Witness for C6 instantiating the universal part at 37.5 percent. -/
theorem c6_progress_bar_witness :
    (⌊(20 : ℚ) * (75 / 2) / 100⌋).toNat ≤ 20
    ∧ _create_progress_bar (75 / 2) =
        String.mk (List.replicate (⌊(20 : ℚ) * (75 / 2) / 100⌋).toNat '█'
          ++ List.replicate (20 - (⌊(20 : ℚ) * (75 / 2) / 100⌋).toNat) '░')
        ++ " " ++ formatFixed1 (75 / 2) ++ "%" :=
  c6_progress_bar.1 (75 / 2) (by norm_num) (by norm_num)

end Asana
